import Mathlib

/-!
Verification of the queueing-simulation engine (`queue_simulation.py`).

The Python source is shallowly embedded: Python floats become `ℚ` (exact
arithmetic), Python ints become `Int`/`Nat`, the global `random` module is an
injected stream `draws : Nat → ℚ` together with an index of the next unused
draw (`random.expovariate(rate)` consumes one stream element; for a positive
rate its result is always nonnegative, which becomes a hypothesis where it
matters), and mutation becomes explicit state passing. Fallible operations
(the `TypeError` raised when Python compares two order-less `Customer`
dataclass values inside an event tuple) return `Option`.
-/

namespace QueueSim

/-- The `Customer` dataclass: id, arrival time, and the two initially-unset
timestamps (`None` becomes `Option.none`). -/
structure Customer where
  id : Nat
  arrival_time : ℚ
  service_start_time : Option ℚ := none
  departure_time : Option ℚ := none
deriving DecidableEq, Repr

/-- Property `Customer.waiting_time`: `service_start_time - arrival_time`,
`None` while service has not started. -/
def Customer.waiting_time (c : Customer) : Option ℚ :=
  match c.service_start_time with
  | none => none
  | some s => some (s - c.arrival_time)

/-- Property `Customer.system_time`: `departure_time - arrival_time`,
`None` until departure is recorded. -/
def Customer.system_time (c : Customer) : Option ℚ :=
  match c.departure_time with
  | none => none
  | some d => some (d - c.arrival_time)

/-- The two event-type strings used by the engine. -/
inductive EventType where
  | arrival
  | departure
deriving DecidableEq, Repr

/-- Python string comparison restricted to the two event-type strings:
the string "arrival" sorts strictly before the string "departure". -/
def EventType.strLt : EventType → EventType → Bool
  | .arrival, .departure => true
  | _, _ => false

/-- An entry of the event queue: the tuple `(time, event_type, data)`. -/
structure Event where
  time : ℚ
  etype : EventType
  data : Customer
deriving DecidableEq, Repr

/-- Python's `<` on the tuples `(time, event_type, data)` as used by `heapq`:
elementwise, the first components that are not `==`-equal are compared with
`<`; if all components are equal the result is `False`. Comparing two unequal
`Customer` values raises `TypeError` (the dataclass derives no ordering),
modelled as `none`. -/
def pyEventLt (e1 e2 : Event) : Option Bool :=
  if e1.time = e2.time then
    if e1.etype = e2.etype then
      if e1.data = e2.data then some false
      else none
    else some (EventType.strLt e1.etype e2.etype)
  else some (decide (e1.time < e2.time))

/-- The priority queue of pending events. `heapq.heappush` keeps the heap
ordered so that `heapq.heappop` returns the smallest entry; we model the
queue by a list kept sorted under `pyEventLt` (insertion walks to the first
position whose entry the new one is `<` than), popping from the head.
A failed tuple comparison (`TypeError`) yields `none`. -/
def insertEvent (e : Event) : List Event → Option (List Event)
  | [] => some [e]
  | x :: xs =>
    match pyEventLt e x with
    | none => none
    | some true => some (e :: x :: xs)
    | some false => (insertEvent e xs).map (fun r => x :: r)

/-- The mutable state of a `QueueSimulation` object: configuration fields,
simulation state, statistics counters, and plotting history, exactly the
attributes set by `__init__`. `num_servers` is a Python int (`Int`);
`busy_servers` likewise (`-= 1` could in principle drive it negative). -/
structure QueueSimulation where
  num_servers : Int
  arrival_rate : ℚ
  service_rate : ℚ
  current_time : ℚ
  event_queue : List Event
  waiting_queue : List Customer
  busy_servers : Int
  next_customer_id : Nat
  customers_arrived : Nat
  customers_served : Nat
  total_waiting_time : ℚ
  total_system_time : ℚ
  queue_length_sum : ℚ
  last_event_time : ℚ
  max_queue_length : Nat
  time_history : List ℚ
  queue_length_history : List Nat
  customers_in_system_history : List Int
deriving DecidableEq, Repr

/-- Constructor `QueueSimulation.__init__`: stores the three parameters unchanged and
zero-initialises all state; no validation of any kind is performed. -/
def QueueSimulation.init (num_servers : Int) (arrival_rate service_rate : ℚ) :
    QueueSimulation where
  num_servers := num_servers
  arrival_rate := arrival_rate
  service_rate := service_rate
  current_time := 0
  event_queue := []
  waiting_queue := []
  busy_servers := 0
  next_customer_id := 0
  customers_arrived := 0
  customers_served := 0
  total_waiting_time := 0
  total_system_time := 0
  queue_length_sum := 0
  last_event_time := 0
  max_queue_length := 0
  time_history := []
  queue_length_history := []
  customers_in_system_history := []

/-- Method `reset`: re-runs `__init__` with the stored configuration. -/
def QueueSimulation.reset (s : QueueSimulation) : QueueSimulation :=
  QueueSimulation.init s.num_servers s.arrival_rate s.service_rate

/-- Method `schedule_event`: `heapq.heappush(self.event_queue, (time, event_type, data))`;
`none` models the `TypeError` raised when the push compares two order-less
`Customer` values. -/
def QueueSimulation.schedule_event (s : QueueSimulation) (time : ℚ)
    (etype : EventType) (data : Customer) : Option QueueSimulation :=
  (insertEvent ⟨time, etype, data⟩ s.event_queue).map
    (fun q => { s with event_queue := q })

/-- Method `update_statistics(time_delta)`: time-weighted accumulation over the
waiting FIFO's current (pre-event) length. -/
def QueueSimulation.update_statistics (s : QueueSimulation) (time_delta : ℚ) :
    QueueSimulation :=
  let queue_length := s.waiting_queue.length
  { s with
    queue_length_sum := s.queue_length_sum + (queue_length : ℚ) * time_delta
    max_queue_length := max s.max_queue_length queue_length }

/-- The tail of `handle_arrival` (and of `run`'s preamble is similar):
draw an interarrival gap, create a fresh customer arriving at
`current_time + gap`, and schedule its arrival event. Consumes one draw. -/
def QueueSimulation.schedule_next_arrival (draws : Nat → ℚ) (k : Nat)
    (s : QueueSimulation) : Option (QueueSimulation × Nat) :=
  let next_arrival_time := s.current_time + draws k
  let next_customer : Customer := { id := s.next_customer_id, arrival_time := next_arrival_time }
  let s := { s with next_customer_id := s.next_customer_id + 1 }
  (s.schedule_event next_arrival_time EventType.arrival next_customer).map
    (fun s => (s, k + 1))

/-- Method `handle_arrival(customer)`: count the arrival; if a server is free, occupy
it, stamp service start, draw a service duration and schedule the departure;
otherwise append the customer to the waiting FIFO. Either way schedule the
next arrival. -/
def QueueSimulation.handle_arrival (draws : Nat → ℚ) (k : Nat)
    (s : QueueSimulation) (customer : Customer) : Option (QueueSimulation × Nat) :=
  let s := { s with customers_arrived := s.customers_arrived + 1 }
  if s.busy_servers < s.num_servers then
    let s := { s with busy_servers := s.busy_servers + 1 }
    let customer := { customer with service_start_time := some s.current_time }
    let service_time := draws k
    let departure_time := s.current_time + service_time
    match s.schedule_event departure_time EventType.departure customer with
    | none => none
    | some s => s.schedule_next_arrival draws (k + 1)
  else
    let s := { s with waiting_queue := s.waiting_queue ++ [customer] }
    s.schedule_next_arrival draws k

/-- Method `handle_departure(customer)`: stamp the departure, count it, accumulate
the customer's waiting and system times (`None` there would be a `TypeError`,
modelled as failure, though departures always carry served customers); then
either hand the freed server to the head of the waiting FIFO (scheduling its
departure) or mark the server idle. -/
def QueueSimulation.handle_departure (draws : Nat → ℚ) (k : Nat)
    (s : QueueSimulation) (customer : Customer) : Option (QueueSimulation × Nat) :=
  let customer := { customer with departure_time := some s.current_time }
  match customer.waiting_time, customer.system_time with
  | some w, some st =>
    let s := { s with
      customers_served := s.customers_served + 1
      total_waiting_time := s.total_waiting_time + w
      total_system_time := s.total_system_time + st }
    match s.waiting_queue with
    | next_customer :: restq =>
      let s := { s with waiting_queue := restq }
      let next_customer := { next_customer with service_start_time := some s.current_time }
      let service_time := draws k
      let departure_time := s.current_time + service_time
      (s.schedule_event departure_time EventType.departure next_customer).map
        (fun s => (s, k + 1))
    | [] => some ({ s with busy_servers := s.busy_servers - 1 }, k)
  | _, _ => none

/-- Python truthiness of the `max_time` bound combined with its check:
`if max_time and event_time > max_time` — `None` and `0.0` are falsy, so the
check fires only for a nonzero bound that the popped time exceeds. -/
def timeBoundHit (max_time : Option ℚ) (event_time : ℚ) : Bool :=
  match max_time with
  | none => false
  | some v => decide (v ≠ 0) && decide (event_time > v)

/-- Python truthiness of the `max_customers` bound combined with its check:
`if max_customers and self.customers_served >= max_customers` — `None` and
`0` are falsy, so `max_customers=0` never stops the run. -/
def customerBoundHit (max_customers : Option Int) (served : Nat) : Bool :=
  match max_customers with
  | none => false
  | some m => decide (m ≠ 0) && decide ((served : Int) ≥ m)

/-- Outcome of one iteration of `run`'s `while` loop. -/
inductive StepResult where
  | finished (s : QueueSimulation) (k : Nat)
  | halted (s : QueueSimulation) (k : Nat)
  | stepped (s : QueueSimulation) (k : Nat)
  | failure
deriving DecidableEq, Repr

/-- One iteration of the `while self.event_queue` loop in `run`: pop the head
event, break if a bound fires (the popped event is discarded), otherwise
update statistics on the pre-event state, advance the clock, append history,
and dispatch to the matching handler. -/
def run_step (draws : Nat → ℚ) (max_time : Option ℚ) (max_customers : Option Int)
    (s : QueueSimulation) (k : Nat) : StepResult :=
  match s.event_queue with
  | [] => StepResult.finished s k
  | ev :: rest =>
    let s := { s with event_queue := rest }
    if timeBoundHit max_time ev.time then StepResult.halted s k
    else if customerBoundHit max_customers s.customers_served then StepResult.halted s k
    else
      let time_delta := ev.time - s.last_event_time
      let s := s.update_statistics time_delta
      let s := { s with current_time := ev.time, last_event_time := ev.time }
      let s := { s with
        time_history := s.time_history ++ [s.current_time]
        queue_length_history := s.queue_length_history ++ [s.waiting_queue.length]
        customers_in_system_history :=
          s.customers_in_system_history ++ [(s.waiting_queue.length : Int) + s.busy_servers] }
      match ev.etype with
      | EventType.arrival =>
        match s.handle_arrival draws k ev.data with
        | some (s, k) => StepResult.stepped s k
        | none => StepResult.failure
      | EventType.departure =>
        match s.handle_departure draws k ev.data with
        | some (s, k) => StepResult.stepped s k
        | none => StepResult.failure

/-- Outcome of a whole (fuelled) `run` call. -/
inductive RunResult where
  | done (s : QueueSimulation) (k : Nat)
  | outOfFuel (s : QueueSimulation) (k : Nat)
  | failure
deriving DecidableEq, Repr

/-- The preamble of `run`: unconditionally draw a gap, create the first
customer and schedule its arrival — note the source schedules it at the raw
draw (not `current_time + draw`) and never inspects events left in the queue. -/
def run_start (draws : Nat → ℚ) (s : QueueSimulation) (k : Nat) :
    Option (QueueSimulation × Nat) :=
  let first_arrival_time := draws k
  let first_customer : Customer := { id := s.next_customer_id, arrival_time := first_arrival_time }
  let s := { s with next_customer_id := s.next_customer_id + 1 }
  (s.schedule_event first_arrival_time EventType.arrival first_customer).map
    (fun s => (s, k + 1))

/-- The `while` loop of `run`, driven by explicit fuel: the Python loop has no
intrinsic bound, so `outOfFuel` means "still looping after that many
iterations". -/
def run_loop (draws : Nat → ℚ) (max_time : Option ℚ) (max_customers : Option Int) :
    Nat → QueueSimulation → Nat → RunResult
  | 0, s, k => RunResult.outOfFuel s k
  | fuel + 1, s, k =>
    match run_step draws max_time max_customers s k with
    | StepResult.finished s k => RunResult.done s k
    | StepResult.halted s k => RunResult.done s k
    | StepResult.stepped s k => run_loop draws max_time max_customers fuel s k
    | StepResult.failure => RunResult.failure

/-- Method `run(max_time, max_customers)`: schedule the first arrival, then loop. -/
def QueueSimulation.run (draws : Nat → ℚ) (max_time : Option ℚ)
    (max_customers : Option Int) (fuel : Nat) (s : QueueSimulation) (k : Nat) :
    RunResult :=
  match run_start draws s k with
  | none => RunResult.failure
  | some (s, k) => run_loop draws max_time max_customers fuel s k

/-- The dictionary returned by `get_statistics`. The `customers_served == 0`
branch of the source returns a dict *without* the `'current_time'` key, so
that field is an `Option`, `none` meaning "key absent". -/
structure Stats where
  customers_arrived : Nat
  customers_served : Nat
  avg_waiting_time : ℚ
  avg_system_time : ℚ
  avg_queue_length : ℚ
  max_queue_length : Nat
  server_utilization : ℚ
  current_queue_length : Nat
  busy_servers : Int
  current_time : Option ℚ
deriving DecidableEq, Repr

/-- Method `get_statistics()`: early all-zero snapshot when nothing has been served
(note: it hard-codes `max_queue_length` to `0` and omits `current_time`);
otherwise the averages, with the two `current_time > 0` guards of the source. -/
def QueueSimulation.get_statistics (s : QueueSimulation) : Stats :=
  if s.customers_served = 0 then
    { customers_arrived := s.customers_arrived
      customers_served := 0
      avg_waiting_time := 0
      avg_system_time := 0
      avg_queue_length := 0
      max_queue_length := 0
      server_utilization := 0
      current_queue_length := s.waiting_queue.length
      busy_servers := s.busy_servers
      current_time := none }
  else
    let avg_waiting_time := s.total_waiting_time / (s.customers_served : ℚ)
    let avg_system_time := s.total_system_time / (s.customers_served : ℚ)
    let avg_queue_length :=
      if s.current_time > 0 then s.queue_length_sum / s.current_time else 0
    let server_utilization :=
      if s.current_time > 0 then
        ((s.customers_served : ℚ) *
            (s.total_system_time / (s.customers_served : ℚ) - avg_waiting_time)) /
          (s.current_time * (s.num_servers : ℚ))
      else 0
    { customers_arrived := s.customers_arrived
      customers_served := s.customers_served
      avg_waiting_time := avg_waiting_time
      avg_system_time := avg_system_time
      avg_queue_length := avg_queue_length
      max_queue_length := s.max_queue_length
      server_utilization := server_utilization
      current_queue_length := s.waiting_queue.length
      busy_servers := s.busy_servers
      current_time := some s.current_time }

/-- The dictionary returned by `get_theoretical_statistics`: either the
unstable report (utilization plus the instability note, no averages) or the
stable report with the four finite averages. -/
inductive TheoStats where
  | unstable (utilization : ℚ)
  | stable (utilization L Lq W Wq : ℚ)
deriving DecidableEq, Repr

/-- Python `math.factorial` on an int, as a rational. The source only reaches
it with `num_servers > 1` (`math.factorial` raises on negative input, which
no claim exercises). -/
def intFactorial (n : Int) : ℚ := (Nat.factorial n.toNat : ℚ)

/-- Method `get_theoretical_statistics()`: ρ = λ/(c·μ); unstable report when ρ ≥ 1;
M/M/1 closed forms when `num_servers == 1`; otherwise the Erlang-C
computation with `sum_term`, `erlang_c_term`, `P0` and `C` as in the source. -/
def QueueSimulation.get_theoretical_statistics (s : QueueSimulation) : TheoStats :=
  let rho := s.arrival_rate / ((s.num_servers : ℚ) * s.service_rate)
  if rho ≥ 1 then TheoStats.unstable rho
  else if s.num_servers = 1 then
    let L := s.arrival_rate / (s.service_rate - s.arrival_rate)
    let Lq := s.arrival_rate ^ 2 / (s.service_rate * (s.service_rate - s.arrival_rate))
    let W := 1 / (s.service_rate - s.arrival_rate)
    let Wq := s.arrival_rate / (s.service_rate * (s.service_rate - s.arrival_rate))
    TheoStats.stable rho L Lq W Wq
  else
    let c := s.num_servers
    let lambda_rate := s.arrival_rate
    let mu := s.service_rate
    let sum_term :=
      (Finset.range c.toNat).sum (fun n => ((c : ℚ) * rho) ^ n / (Nat.factorial n : ℚ))
    let erlang_c_term := ((c : ℚ) * rho) ^ c.toNat / (intFactorial c * (1 - rho))
    let P0 := 1 / (sum_term + erlang_c_term)
    let C := erlang_c_term * P0
    let Lq := C * rho / (1 - rho)
    let Wq := Lq / lambda_rate
    let W := Wq + 1 / mu
    let L := lambda_rate * W
    TheoStats.stable rho L Lq W Wq

/-- The theoretical calculator as §4.3 of the spec words it, a pure function
of `(c, λ, μ)`: ρ = λ/(c·μ); if ρ ≥ 1 report only ρ with the instability
flag; if c = 1 the M/M/1 closed forms; if c > 1 the Erlang-C values with
`P0 = [Σ_{n<c} (cρ)^n/n! + (cρ)^c/(c!(1−ρ))]⁻¹` and
`C = (cρ)^c/(c!(1−ρ)) · P0`. -/
def specTheoretical (c : Int) (lam mu : ℚ) : TheoStats :=
  let rho := lam / ((c : ℚ) * mu)
  if 1 ≤ rho then TheoStats.unstable rho
  else if c = 1 then
    TheoStats.stable rho
      (lam / (mu - lam))
      (lam ^ 2 / (mu * (mu - lam)))
      (1 / (mu - lam))
      (lam / (mu * (mu - lam)))
  else
    let P0 :=
      ((Finset.range c.toNat).sum (fun n => ((c : ℚ) * rho) ^ n / (Nat.factorial n : ℚ)) +
          ((c : ℚ) * rho) ^ c.toNat / (intFactorial c * (1 - rho)))⁻¹
    let C := ((c : ℚ) * rho) ^ c.toNat / (intFactorial c * (1 - rho)) * P0
    let Lq := C * rho / (1 - rho)
    let Wq := Lq / lam
    let W := Wq + 1 / mu
    let L := lam * W
    TheoStats.stable rho L Lq W Wq

/-- Number of pending arrival events in an event queue. -/
def countA (l : List Event) : Nat :=
  l.countP (fun e => e.etype == EventType.arrival)

/-- Number of pending departure events in an event queue. -/
def countD (l : List Event) : Nat :=
  l.countP (fun e => e.etype == EventType.departure)

/-- Order of two queue entries by their scheduled times. -/
def timeLe (a b : Event) : Prop := a.time ≤ b.time

/-- States reachable inside one `run` loop: zero or more successful loop
iterations from a given state and draw index. -/
inductive Reaches (draws : Nat → ℚ) (max_time : Option ℚ) (max_customers : Option Int) :
    QueueSimulation → Nat → QueueSimulation → Nat → Prop where
  | refl : ∀ s k, Reaches draws max_time max_customers s k s k
  | tail : ∀ s k s1 k1 s2 k2, Reaches draws max_time max_customers s k s1 k1 →
      run_step draws max_time max_customers s1 k1 = StepResult.stepped s2 k2 →
      Reaches draws max_time max_customers s k s2 k2

theorem pyEventLt_true_le {e1 e2 : Event} (h : pyEventLt e1 e2 = some true) :
    e1.time ≤ e2.time := by
  unfold pyEventLt at h
  by_cases ht : e1.time = e2.time
  · exact le_of_eq ht
  · simp only [ht, if_false, if_neg ht, Option.some.injEq] at h
    exact le_of_lt (by simpa using h)

theorem pyEventLt_false_le {e1 e2 : Event} (h : pyEventLt e1 e2 = some false) :
    e2.time ≤ e1.time := by
  unfold pyEventLt at h
  by_cases ht : e1.time = e2.time
  · exact le_of_eq ht.symm
  · simp only [ht, if_false, if_neg ht, Option.some.injEq] at h
    simp only [decide_eq_false_iff_not, not_lt] at h
    exact h

theorem insertEvent_perm {e : Event} :
    ∀ {l l' : List Event}, insertEvent e l = some l' → l'.Perm (e :: l)
  | [], l', h => by
      simp only [insertEvent, Option.some.injEq] at h
      subst h; exact List.Perm.refl _
  | x :: xs, l', h => by
      simp only [insertEvent] at h
      cases hcmp : pyEventLt e x with
      | none => rw [hcmp] at h; exact absurd h (by simp)
      | some b =>
        rw [hcmp] at h
        cases b with
        | true =>
          simp only [Option.some.injEq] at h
          subst h; exact List.Perm.refl _
        | false =>
          cases hrec : insertEvent e xs with
          | none => rw [hrec] at h; exact absurd h (by simp)
          | some r =>
            rw [hrec] at h
            simp only [Option.map_some', Option.some.injEq] at h
            subst h
            exact (List.Perm.cons x (insertEvent_perm hrec)).trans (List.Perm.swap e x xs)

theorem insertEvent_sorted {e : Event} :
    ∀ {l l' : List Event}, List.Pairwise timeLe l → insertEvent e l = some l' →
      List.Pairwise timeLe l'
  | [], l', _, h => by
      simp only [insertEvent, Option.some.injEq] at h
      subst h; simp
  | x :: xs, l', hs, h => by
      simp only [insertEvent] at h
      cases hcmp : pyEventLt e x with
      | none => rw [hcmp] at h; exact absurd h (by simp)
      | some b =>
        rw [hcmp] at h
        cases b with
        | true =>
          simp only [Option.some.injEq] at h
          subst h
          refine List.Pairwise.cons ?_ hs
          intro z hz
          rcases List.mem_cons.mp hz with rfl | hz
          · exact pyEventLt_true_le hcmp
          · exact le_trans (pyEventLt_true_le hcmp) (List.rel_of_pairwise_cons hs hz)
        | false =>
          cases hrec : insertEvent e xs with
          | none => rw [hrec] at h; exact absurd h (by simp)
          | some r =>
            rw [hrec] at h
            simp only [Option.map_some', Option.some.injEq] at h
            subst h
            refine List.Pairwise.cons ?_ (insertEvent_sorted hs.tail hrec)
            intro z hz
            rcases List.mem_cons.mp ((insertEvent_perm hrec).mem_iff.mp hz) with rfl | hz
            · exact pyEventLt_false_le hcmp
            · exact List.rel_of_pairwise_cons hs hz

theorem insertEvent_countP {e : Event} {l l' : List Event}
    (h : insertEvent e l = some l') (p : Event → Bool) :
    l'.countP p = (if p e then 1 else 0) + l.countP p := by
  have := (insertEvent_perm h).countP_eq p
  rw [this, List.countP_cons]
  by_cases hp : p e <;> simp [hp, Nat.add_comm]

theorem insertEvent_mem {e : Event} {l l' : List Event}
    (h : insertEvent e l = some l') {z : Event} (hz : z ∈ l') : z = e ∨ z ∈ l :=
  List.mem_cons.mp ((insertEvent_perm h).mem_iff.mp hz)

theorem schedule_event_some {s s' : QueueSimulation} {t : ℚ} {ty : EventType}
    {c : Customer} (h : s.schedule_event t ty c = some s') :
    ∃ q, insertEvent ⟨t, ty, c⟩ s.event_queue = some q ∧
      s' = { s with event_queue := q } := by
  unfold QueueSimulation.schedule_event at h
  rw [Option.map_eq_some'] at h
  obtain ⟨q, hq, heq⟩ := h
  exact ⟨q, hq, heq.symm⟩

theorem schedule_next_arrival_some {draws : Nat → ℚ} {k : Nat}
    {s s' : QueueSimulation} {k' : Nat}
    (h : s.schedule_next_arrival draws k = some (s', k')) :
    k' = k + 1 ∧
    ∃ q, insertEvent ⟨s.current_time + draws k, EventType.arrival,
        ⟨s.next_customer_id, s.current_time + draws k, none, none⟩⟩ s.event_queue =
          some q ∧
      s' = { s with next_customer_id := s.next_customer_id + 1, event_queue := q } := by
  simp only [QueueSimulation.schedule_next_arrival] at h
  rw [Option.map_eq_some'] at h
  obtain ⟨s2, hq, hpair⟩ := h
  have h1 : s2 = s' := congrArg Prod.fst hpair
  have h2 : k + 1 = k' := congrArg Prod.snd hpair
  subst h1
  subst h2
  obtain ⟨q, hins, hfields⟩ := schedule_event_some hq
  exact ⟨rfl, q, hins, hfields⟩

theorem run_start_some {draws : Nat → ℚ} {s : QueueSimulation} {k : Nat}
    {s' : QueueSimulation} {k' : Nat}
    (h : run_start draws s k = some (s', k')) :
    k' = k + 1 ∧
    ∃ q, insertEvent ⟨draws k, EventType.arrival,
        ⟨s.next_customer_id, draws k, none, none⟩⟩ s.event_queue = some q ∧
      s' = { s with next_customer_id := s.next_customer_id + 1, event_queue := q } := by
  simp only [run_start] at h
  rw [Option.map_eq_some'] at h
  obtain ⟨s2, hq, hpair⟩ := h
  have h1 : s2 = s' := congrArg Prod.fst hpair
  have h2 : k + 1 = k' := congrArg Prod.snd hpair
  subst h1
  subst h2
  obtain ⟨q, hins, hfields⟩ := schedule_event_some hq
  exact ⟨rfl, q, hins, hfields⟩

theorem insertEvent_countA {e : Event} {l l' : List Event}
    (h : insertEvent e l = some l') :
    countA l' = (if e.etype = EventType.arrival then 1 else 0) + countA l := by
  have := insertEvent_countP h (fun e => e.etype == EventType.arrival)
  simpa [countA, beq_iff_eq] using this

theorem insertEvent_countD {e : Event} {l l' : List Event}
    (h : insertEvent e l = some l') :
    countD l' = (if e.etype = EventType.departure then 1 else 0) + countD l := by
  have := insertEvent_countP h (fun e => e.etype == EventType.departure)
  simpa [countD, beq_iff_eq] using this

theorem handle_arrival_some {draws : Nat → ℚ} {k : Nat} {s : QueueSimulation}
    {c : Customer} {s' : QueueSimulation} {k' : Nat}
    (h : s.handle_arrival draws k c = some (s', k')) :
    s'.num_servers = s.num_servers ∧
    s'.current_time = s.current_time ∧
    s'.queue_length_sum = s.queue_length_sum ∧
    s'.last_event_time = s.last_event_time ∧
    s'.max_queue_length = s.max_queue_length ∧
    s'.time_history = s.time_history ∧
    countA s'.event_queue = countA s.event_queue + 1 ∧
    (countD s'.event_queue : Int) - s'.busy_servers =
      (countD s.event_queue : Int) - s.busy_servers ∧
    ((s.busy_servers < s.num_servers ∧ s'.busy_servers = s.busy_servers + 1) ∨
      (¬s.busy_servers < s.num_servers ∧ s'.busy_servers = s.busy_servers)) := by
  simp only [QueueSimulation.handle_arrival] at h
  split at h
  · next hlt =>
      split at h
      · next heq => exact absurd h (by simp)
      · next s2 heq =>
          obtain ⟨hk, q, hins2, rfl⟩ := schedule_next_arrival_some h
          obtain ⟨q1, hins1, rfl⟩ := schedule_event_some heq
          have hA2 := insertEvent_countA hins2
          have hA1 := insertEvent_countA hins1
          have hD2 := insertEvent_countD hins2
          have hD1 := insertEvent_countD hins1
          simp at hA1 hA2 hD1 hD2
          refine ⟨rfl, rfl, rfl, rfl, rfl, rfl, ?_, ?_, Or.inl ⟨hlt, rfl⟩⟩
          · show countA q = countA s.event_queue + 1
            omega
          · show (countD q : Int) - (s.busy_servers + 1) =
              (countD s.event_queue : Int) - s.busy_servers
            omega
  · next hlt =>
      obtain ⟨hk, q, hins, rfl⟩ := schedule_next_arrival_some h
      have hA := insertEvent_countA hins
      have hD := insertEvent_countD hins
      simp at hA hD
      refine ⟨rfl, rfl, rfl, rfl, rfl, rfl, ?_, ?_, Or.inr ⟨hlt, rfl⟩⟩
      · show countA q = countA s.event_queue + 1
        omega
      · show (countD q : Int) - s.busy_servers =
          (countD s.event_queue : Int) - s.busy_servers
        omega

theorem handle_departure_some {draws : Nat → ℚ} {k : Nat} {s : QueueSimulation}
    {c : Customer} {s' : QueueSimulation} {k' : Nat}
    (h : s.handle_departure draws k c = some (s', k')) :
    s'.num_servers = s.num_servers ∧
    s'.current_time = s.current_time ∧
    s'.queue_length_sum = s.queue_length_sum ∧
    s'.last_event_time = s.last_event_time ∧
    s'.max_queue_length = s.max_queue_length ∧
    s'.time_history = s.time_history ∧
    countA s'.event_queue = countA s.event_queue ∧
    (countD s'.event_queue : Int) - s'.busy_servers =
      (countD s.event_queue : Int) - s.busy_servers + 1 ∧
    s.busy_servers - 1 ≤ s'.busy_servers ∧ s'.busy_servers ≤ s.busy_servers := by
  simp only [QueueSimulation.handle_departure] at h
  split at h
  · next w st hw hst =>
      split at h
      · next next_customer restq hwq =>
          rw [Option.map_eq_some'] at h
          obtain ⟨s2, hq, hpair⟩ := h
          have h1 : s2 = s' := congrArg Prod.fst hpair
          have h2 : k + 1 = k' := congrArg Prod.snd hpair
          subst h1
          subst h2
          obtain ⟨q, hins, rfl⟩ := schedule_event_some hq
          have hA := insertEvent_countA hins
          have hD := insertEvent_countD hins
          simp at hA hD
          refine ⟨rfl, rfl, rfl, rfl, rfl, rfl, ?_, ?_, ?_, ?_⟩
          · show countA q = countA s.event_queue
            omega
          · show (countD q : Int) - s.busy_servers =
              (countD s.event_queue : Int) - s.busy_servers + 1
            omega
          · show s.busy_servers - 1 ≤ s.busy_servers
            omega
          · show s.busy_servers ≤ s.busy_servers
            omega
      · next hwq =>
          simp only [Option.some.injEq] at h
          have h1 : _ = s' := congrArg Prod.fst h
          have h2 : k = k' := congrArg Prod.snd h
          subst h1
          subst h2
          refine ⟨rfl, rfl, rfl, rfl, rfl, rfl, rfl, ?_, ?_, ?_⟩
          · show (countD s.event_queue : Int) - (s.busy_servers - 1) =
              (countD s.event_queue : Int) - s.busy_servers + 1
            omega
          · show s.busy_servers - 1 ≤ s.busy_servers - 1
            omega
          · show s.busy_servers - 1 ≤ s.busy_servers
            omega
  · next hw hst =>
      exact absurd h (by simp)

theorem handle_arrival_order {draws : Nat → ℚ} {k : Nat} {s : QueueSimulation}
    {c : Customer} {s' : QueueSimulation} {k' : Nat} {b : ℚ}
    (hd : ∀ i, 0 ≤ draws i)
    (h : s.handle_arrival draws k c = some (s', k'))
    (hsort : List.Pairwise timeLe s.event_queue)
    (hb : ∀ e ∈ s.event_queue, b ≤ e.time)
    (hbc : b ≤ s.current_time) :
    List.Pairwise timeLe s'.event_queue ∧ ∀ e ∈ s'.event_queue, b ≤ e.time := by
  simp only [QueueSimulation.handle_arrival] at h
  split at h
  · next hlt =>
      split at h
      · next heq => exact absurd h (by simp)
      · next s2 heq =>
          obtain ⟨hk, q, hins2, rfl⟩ := schedule_next_arrival_some h
          obtain ⟨q1, hins1, rfl⟩ := schedule_event_some heq
          have hs1 : List.Pairwise timeLe q1 := insertEvent_sorted hsort hins1
          have hb1 : ∀ e ∈ q1, b ≤ e.time := by
            intro e he
            rcases insertEvent_mem hins1 he with rfl | he
            · show b ≤ s.current_time + draws k
              have := hd k
              linarith
            · exact hb e he
          refine ⟨insertEvent_sorted hs1 hins2, ?_⟩
          intro e he
          rcases insertEvent_mem hins2 he with rfl | he
          · show b ≤ s.current_time + draws (k + 1)
            have := hd (k + 1)
            linarith
          · exact hb1 e he
  · next hlt =>
      obtain ⟨hk, q, hins, rfl⟩ := schedule_next_arrival_some h
      refine ⟨insertEvent_sorted hsort hins, ?_⟩
      intro e he
      rcases insertEvent_mem hins he with rfl | he
      · show b ≤ s.current_time + draws k
        have := hd k
        linarith
      · exact hb e he

theorem handle_departure_order {draws : Nat → ℚ} {k : Nat} {s : QueueSimulation}
    {c : Customer} {s' : QueueSimulation} {k' : Nat} {b : ℚ}
    (hd : ∀ i, 0 ≤ draws i)
    (h : s.handle_departure draws k c = some (s', k'))
    (hsort : List.Pairwise timeLe s.event_queue)
    (hb : ∀ e ∈ s.event_queue, b ≤ e.time)
    (hbc : b ≤ s.current_time) :
    List.Pairwise timeLe s'.event_queue ∧ ∀ e ∈ s'.event_queue, b ≤ e.time := by
  simp only [QueueSimulation.handle_departure] at h
  split at h
  · next w st hw hst =>
      split at h
      · next next_customer restq hwq =>
          rw [Option.map_eq_some'] at h
          obtain ⟨s2, hq, hpair⟩ := h
          have h1 : s2 = s' := congrArg Prod.fst hpair
          subst h1
          obtain ⟨q, hins, rfl⟩ := schedule_event_some hq
          refine ⟨insertEvent_sorted hsort hins, ?_⟩
          intro e he
          rcases insertEvent_mem hins he with rfl | he
          · show b ≤ s.current_time + draws k
            have := hd k
            linarith
          · exact hb e he
      · next hwq =>
          simp only [Option.some.injEq] at h
          have h1 : _ = s' := congrArg Prod.fst h
          subst h1
          exact ⟨hsort, hb⟩
  · next hw hst =>
      exact absurd h (by simp)

/-- The state just after the statistics, clock and history updates of one
loop iteration of `run`, before the popped event `ev` is dispatched
(`rest` is the remaining queue). -/
def midState (s : QueueSimulation) (ev : Event) (rest : List Event) :
    QueueSimulation :=
  { s with
    event_queue := rest
    queue_length_sum :=
      s.queue_length_sum + (s.waiting_queue.length : ℚ) * (ev.time - s.last_event_time)
    max_queue_length := max s.max_queue_length s.waiting_queue.length
    current_time := ev.time
    last_event_time := ev.time
    time_history := s.time_history ++ [ev.time]
    queue_length_history := s.queue_length_history ++ [s.waiting_queue.length]
    customers_in_system_history :=
      s.customers_in_system_history ++ [(s.waiting_queue.length : Int) + s.busy_servers] }

theorem run_step_stepped {draws : Nat → ℚ} {mt : Option ℚ} {mc : Option Int}
    {s : QueueSimulation} {k : Nat} {s' : QueueSimulation} {k' : Nat}
    (h : run_step draws mt mc s k = StepResult.stepped s' k') :
    ∃ ev rest, s.event_queue = ev :: rest ∧
      timeBoundHit mt ev.time = false ∧
      customerBoundHit mc s.customers_served = false ∧
      ((ev.etype = EventType.arrival ∧
          (midState s ev rest).handle_arrival draws k ev.data = some (s', k')) ∨
        (ev.etype = EventType.departure ∧
          (midState s ev rest).handle_departure draws k ev.data = some (s', k'))) := by
  simp only [run_step] at h
  split at h
  · exact absurd h (by simp)
  · next ev rest hq =>
      refine ⟨ev, rest, hq, ?_⟩
      split at h
      · exact absurd h (by simp)
      · next hbt =>
          split at h
          · exact absurd h (by simp)
          · next hbc =>
              refine ⟨by simpa using hbt, by simpa using hbc, ?_⟩
              split at h
              · next hty =>
                  split at h
                  · next s2 k2 hha =>
                      simp only [StepResult.stepped.injEq] at h
                      obtain ⟨rfl, rfl⟩ := h
                      exact Or.inl ⟨hty, hha⟩
                  · next hha => exact absurd h (by simp)
              · next hty =>
                  split at h
                  · next s2 k2 hhd =>
                      simp only [StepResult.stepped.injEq] at h
                      obtain ⟨rfl, rfl⟩ := h
                      exact Or.inr ⟨hty, hhd⟩
                  · next hhd => exact absurd h (by simp)

theorem countA_cons (e : Event) (l : List Event) :
    countA (e :: l) = (if e.etype = EventType.arrival then 1 else 0) + countA l := by
  simp [countA, List.countP_cons, beq_iff_eq, Nat.add_comm]

theorem countD_cons (e : Event) (l : List Event) :
    countD (e :: l) = (if e.etype = EventType.departure then 1 else 0) + countD l := by
  simp [countD, List.countP_cons, beq_iff_eq, Nat.add_comm]

/-- Processing one event leaves the number of pending arrivals unchanged:
an arrival is popped and exactly one new arrival is scheduled, a departure
leaves the pending arrivals alone. -/
theorem run_step_countA {draws : Nat → ℚ} {mt : Option ℚ} {mc : Option Int}
    {s : QueueSimulation} {k : Nat} {s' : QueueSimulation} {k' : Nat}
    (h : run_step draws mt mc s k = StepResult.stepped s' k') :
    countA s'.event_queue = countA s.event_queue := by
  obtain ⟨ev, rest, hq, _, _, hcase⟩ := run_step_stepped h
  rcases hcase with ⟨hty, hha⟩ | ⟨hty, hhd⟩
  · have hA := (handle_arrival_some hha).2.2.2.2.2.2.1
    have hmid : countA (midState s ev rest).event_queue = countA rest := rfl
    rw [hmid] at hA
    rw [hq, countA_cons, hty, if_pos rfl]
    omega
  · have hA := (handle_departure_some hhd).2.2.2.2.2.2.1
    have hmid : countA (midState s ev rest).event_queue = countA rest := rfl
    rw [hmid] at hA
    rw [hq, countA_cons, hty, if_neg (fun hc => EventType.noConfusion hc)]
    omega

/-- Processing one event preserves the invariant "pending departures equal
busy servers" together with the server-count upper bound. -/
theorem run_step_busy {draws : Nat → ℚ} {mt : Option ℚ} {mc : Option Int}
    {s : QueueSimulation} {k : Nat} {s' : QueueSimulation} {k' : Nat}
    (h : run_step draws mt mc s k = StepResult.stepped s' k')
    (hinv : (countD s.event_queue : Int) = s.busy_servers)
    (hle : s.busy_servers ≤ s.num_servers) :
    (countD s'.event_queue : Int) = s'.busy_servers ∧
    s'.busy_servers ≤ s'.num_servers ∧
    s'.num_servers = s.num_servers := by
  obtain ⟨ev, rest, hq, _, _, hcase⟩ := run_step_stepped h
  rcases hcase with ⟨hty, hha⟩ | ⟨hty, hhd⟩
  · obtain ⟨hns, _, _, _, _, _, _, hD, hbusy⟩ := handle_arrival_some hha
    have hmidD : countD (midState s ev rest).event_queue = countD rest := rfl
    have hmidB : (midState s ev rest).busy_servers = s.busy_servers := rfl
    have hmidN : (midState s ev rest).num_servers = s.num_servers := rfl
    rw [hq, countD_cons, hty, if_neg (fun hc => EventType.noConfusion hc)] at hinv
    rw [hmidD, hmidB] at hD
    rw [hmidN] at hns
    rw [hmidB, hmidN] at hbusy
    refine ⟨by omega, ?_, hns⟩
    rw [hns]
    rcases hbusy with ⟨hlt, hb⟩ | ⟨hge, hb⟩ <;> omega
  · obtain ⟨hns, _, _, _, _, _, _, hD, hlb, hub⟩ := handle_departure_some hhd
    have hmidD : countD (midState s ev rest).event_queue = countD rest := rfl
    have hmidB : (midState s ev rest).busy_servers = s.busy_servers := rfl
    have hmidN : (midState s ev rest).num_servers = s.num_servers := rfl
    rw [hq, countD_cons, hty, if_pos rfl] at hinv
    rw [hmidD, hmidB] at hD
    rw [hmidB] at hlb hub
    rw [hmidN] at hns
    refine ⟨by omega, ?_, hns⟩
    rw [hns]
    omega

/-- The ordering invariant carried through the run loop: the queue is sorted
by time and bounded below by the clock, the two clock fields agree, and the
recorded event-time history is non-decreasing and below the clock. -/
def orderInv (s : QueueSimulation) : Prop :=
  List.Pairwise timeLe s.event_queue ∧
  (∀ e ∈ s.event_queue, s.last_event_time ≤ e.time) ∧
  s.current_time = s.last_event_time ∧
  List.Pairwise (fun a b : ℚ => a ≤ b) s.time_history ∧
  (∀ t ∈ s.time_history, t ≤ s.last_event_time)

theorem run_step_order {draws : Nat → ℚ} {mt : Option ℚ} {mc : Option Int}
    {s : QueueSimulation} {k : Nat} {s' : QueueSimulation} {k' : Nat}
    (hd : ∀ i, 0 ≤ draws i)
    (h : run_step draws mt mc s k = StepResult.stepped s' k')
    (hinv : orderInv s) : orderInv s' := by
  obtain ⟨hsort, hbound, hct, hhist, hhb⟩ := hinv
  obtain ⟨ev, rest, hq, _, _, hcase⟩ := run_step_stepped h
  rw [hq] at hsort hbound
  have hlast_ev : s.last_event_time ≤ ev.time := hbound ev (List.mem_cons_self ev rest)
  have hrest_sort : List.Pairwise timeLe rest := hsort.tail
  have hrest_ge : ∀ e ∈ rest, ev.time ≤ e.time :=
    fun e he => List.rel_of_pairwise_cons hsort he
  have hmid_sort : List.Pairwise timeLe (midState s ev rest).event_queue := hrest_sort
  have hmid_ge : ∀ e ∈ (midState s ev rest).event_queue, ev.time ≤ e.time := hrest_ge
  have hmid_ct : ev.time ≤ (midState s ev rest).current_time := le_refl _
  have hmid_hist : List.Pairwise (fun a b : ℚ => a ≤ b) (midState s ev rest).time_history := by
    show List.Pairwise _ (s.time_history ++ [ev.time])
    rw [List.pairwise_append]
    exact ⟨hhist, List.pairwise_singleton _ _,
      fun a ha b hb => by rw [List.mem_singleton.mp hb]; exact le_trans (hhb a ha) hlast_ev⟩
  have hmid_hb : ∀ t ∈ (midState s ev rest).time_history, t ≤ ev.time := by
    intro t ht
    rcases List.mem_append.mp ht with ht | ht
    · exact le_trans (hhb t ht) hlast_ev
    · rw [List.mem_singleton.mp ht]
  rcases hcase with ⟨hty, hha⟩ | ⟨hty, hhd⟩
  · obtain ⟨hs, hge⟩ := handle_arrival_order hd hha hmid_sort hmid_ge hmid_ct
    obtain ⟨_, hct', _, hlast', _, hth, _⟩ := handle_arrival_some hha
    refine ⟨hs, ?_, ?_, ?_, ?_⟩
    · intro e he
      rw [hlast']
      exact hge e he
    · rw [hct', hlast']
      rfl
    · rw [hth]
      exact hmid_hist
    · intro t ht
      rw [hth] at ht
      rw [hlast']
      exact hmid_hb t ht
  · obtain ⟨hs, hge⟩ := handle_departure_order hd hhd hmid_sort hmid_ge hmid_ct
    obtain ⟨_, hct', _, hlast', _, hth, _⟩ := handle_departure_some hhd
    refine ⟨hs, ?_, ?_, ?_, ?_⟩
    · intro e he
      rw [hlast']
      exact hge e he
    · rw [hct', hlast']
      rfl
    · rw [hth]
      exact hmid_hist
    · intro t ht
      rw [hth] at ht
      rw [hlast']
      exact hmid_hb t ht

theorem reaches_countA {draws : Nat → ℚ} {mt : Option ℚ} {mc : Option Int}
    {s : QueueSimulation} {k : Nat} {s' : QueueSimulation} {k' : Nat}
    (h : Reaches draws mt mc s k s' k') :
    countA s'.event_queue = countA s.event_queue := by
  induction h with
  | refl => rfl
  | tail s1 k1 s2 k2 hr hstep ih => rw [run_step_countA hstep, ih]

theorem reaches_busy {draws : Nat → ℚ} {mt : Option ℚ} {mc : Option Int}
    {s : QueueSimulation} {k : Nat} {s' : QueueSimulation} {k' : Nat}
    (h : Reaches draws mt mc s k s' k')
    (hinv : (countD s.event_queue : Int) = s.busy_servers)
    (hle : s.busy_servers ≤ s.num_servers) :
    (countD s'.event_queue : Int) = s'.busy_servers ∧
    s'.busy_servers ≤ s'.num_servers ∧ s'.num_servers = s.num_servers := by
  induction h with
  | refl => exact ⟨hinv, hle, rfl⟩
  | tail s1 k1 s2 k2 hr hstep ih =>
      obtain ⟨h1, h2, h3⟩ := ih
      obtain ⟨g1, g2, g3⟩ := run_step_busy hstep h1 h2
      exact ⟨g1, g2, by rw [g3, h3]⟩

theorem reaches_order {draws : Nat → ℚ} {mt : Option ℚ} {mc : Option Int}
    {s : QueueSimulation} {k : Nat} {s' : QueueSimulation} {k' : Nat}
    (hd : ∀ i, 0 ≤ draws i)
    (h : Reaches draws mt mc s k s' k')
    (hinv : orderInv s) : orderInv s' := by
  induction h with
  | refl => exact hinv
  | tail s1 k1 s2 k2 hr hstep ih => exact run_step_order hd hstep ih

theorem run_start_counts {draws : Nat → ℚ} {s : QueueSimulation} {k : Nat}
    {s' : QueueSimulation} {k' : Nat}
    (h : run_start draws s k = some (s', k')) :
    countA s'.event_queue = countA s.event_queue + 1 ∧
    countD s'.event_queue = countD s.event_queue ∧
    s'.busy_servers = s.busy_servers ∧
    s'.num_servers = s.num_servers ∧
    s'.next_customer_id = s.next_customer_id + 1 := by
  obtain ⟨hk, q, hins, rfl⟩ := run_start_some h
  have hA := insertEvent_countA hins
  have hD := insertEvent_countD hins
  simp at hA hD
  refine ⟨?_, ?_, rfl, rfl, rfl⟩
  · show countA q = countA s.event_queue + 1
    omega
  · show countD q = countD s.event_queue
    omega

/-- After `run` schedules the first arrival on a freshly constructed
simulation, the ordering invariant holds. -/
theorem run_start_init_order {draws : Nat → ℚ} {ns : Int} {ar sr : ℚ}
    {s1 : QueueSimulation} {k1 : Nat}
    (hd : ∀ i, 0 ≤ draws i)
    (h : run_start draws (QueueSimulation.init ns ar sr) 0 = some (s1, k1)) :
    orderInv s1 := by
  obtain ⟨hk, q, hins, rfl⟩ := run_start_some h
  have hq : q = [⟨draws 0, EventType.arrival, ⟨0, draws 0, none, none⟩⟩] := by
    simpa [insertEvent] using hins.symm
  subst hq
  refine ⟨?_, ?_, rfl, ?_, ?_⟩
  · exact List.pairwise_singleton _ _
  · intro e he
    rw [List.mem_singleton.mp he]
    exact hd 0
  · exact List.Pairwise.nil
  · intro t ht
    cases ht

/-- Whether one loop iteration exited the loop (empty queue or a bound fired). -/
def StepResult.isDone : StepResult → Bool
  | .finished _ _ => true
  | .halted _ _ => true
  | _ => false

/-- Whether the whole run loop exited by itself (rather than running out of
fuel or hitting a comparison `TypeError`). -/
def RunResult.isDone : RunResult → Bool
  | .done _ _ => true
  | _ => false

/-- Number of events a run has processed when started from a fresh state:
the loop appends exactly one `time_history` entry per processed event. -/
def RunResult.processedEvents : RunResult → Nat
  | .done s _ => s.time_history.length
  | .outOfFuel s _ => s.time_history.length
  | .failure => 0

/-- With `max_time=None` and `max_customers` either `None` or `0`, both bound
checks are falsy, so a loop iteration on a state with a pending arrival never
exits the loop. -/
theorem run_step_not_done {draws : Nat → ℚ} {mc : Option Int}
    {s : QueueSimulation} {k : Nat}
    (hmc : mc = none ∨ mc = some 0)
    (hA : 1 ≤ countA s.event_queue) :
    (run_step draws none mc s k).isDone = false := by
  have hne : s.event_queue ≠ [] := by
    intro hq
    rw [hq] at hA
    simp [countA] at hA
  simp only [run_step]
  cases hq : s.event_queue with
  | nil => exact absurd hq hne
  | cons ev rest =>
      have hc : customerBoundHit mc s.customers_served = false := by
        rcases hmc with rfl | rfl
        · rfl
        · simp [customerBoundHit]
      have ht : timeBoundHit none ev.time = false := rfl
      simp only [ht, hc, Bool.false_eq_true, if_false]
      split
      · split
        · rfl
        · rfl
      · split
        · rfl
        · rfl

/-- With `max_time=None` and `max_customers` `None` or `0`, the run loop never
exits: from any state with a pending arrival, every amount of fuel is consumed
(or a comparison failure aborts), and the pending-arrival count persists. -/
theorem run_loop_not_done {draws : Nat → ℚ} {mc : Option Int}
    (hmc : mc = none ∨ mc = some 0) :
    ∀ (fuel : Nat) (s : QueueSimulation) (k : Nat), 1 ≤ countA s.event_queue →
      (run_loop draws none mc fuel s k).isDone = false := by
  intro fuel
  induction fuel with
  | zero => intro s k _; rfl
  | succ n ih =>
      intro s k hA
      simp only [run_loop]
      cases hstep : run_step draws none mc s k with
      | finished s2 k2 =>
          have hcontra := @run_step_not_done draws mc s k hmc hA
          rw [hstep] at hcontra
          exact absurd hcontra (by simp [StepResult.isDone])
      | halted s2 k2 =>
          have hcontra := @run_step_not_done draws mc s k hmc hA
          rw [hstep] at hcontra
          exact absurd hcontra (by simp [StepResult.isDone])
      | stepped s2 k2 =>
          have hA2 : 1 ≤ countA s2.event_queue := by
            rw [run_step_countA hstep]
            exact hA
          exact ih s2 k2 hA2
      | failure => rfl

/-- Concrete draw stream for witnesses: every draw equals 1. -/
def unitDraws : Nat → ℚ := fun _ => 1

/-- Concrete draw stream for witnesses: draw `i` equals `i + 1`. -/
def natDraws : Nat → ℚ := fun i => (i : ℚ) + 1

/-- Concrete fresh simulation for witnesses: one server, λ = 1, μ = 2. -/
def sampleSim : QueueSimulation := QueueSimulation.init 1 1 2

/-- State `sampleSim` right after `run` scheduled its first arrival (`unitDraws`). -/
def sampleS1 : QueueSimulation :=
  { sampleSim with
    next_customer_id := 1
    event_queue := [⟨1, EventType.arrival, ⟨0, 1, none, none⟩⟩] }

/-- State `sampleS1` after one loop iteration of `run` under `unitDraws`. -/
def sampleS2 : QueueSimulation :=
  { sampleSim with
    current_time := 1
    event_queue := [⟨2, EventType.arrival, ⟨1, 2, none, none⟩⟩,
                    ⟨2, EventType.departure, ⟨0, 1, some 1, none⟩⟩]
    busy_servers := 1
    next_customer_id := 2
    customers_arrived := 1
    last_event_time := 1
    time_history := [1]
    queue_length_history := [0]
    customers_in_system_history := [0] }

/-- State `sampleS1` after a second `run` call's preamble under `natDraws`. -/
def sampleS1b : QueueSimulation :=
  { sampleSim with
    next_customer_id := 2
    event_queue := [⟨1, EventType.arrival, ⟨0, 1, none, none⟩⟩,
                    ⟨2, EventType.arrival, ⟨1, 2, none, none⟩⟩] }

theorem arrival_ne_departure : EventType.arrival ≠ EventType.departure :=
  fun h => EventType.noConfusion h

theorem departure_ne_arrival : EventType.departure ≠ EventType.arrival :=
  fun h => EventType.noConfusion h

/-- C1 (amended): calling `run` with both bounds absent, or with
`max_customers=0` and no `max_time`, raises no ConfigError — no such check
exists in the code. Both bound checks are falsy and the queue always holds a
pending arrival, so the loop never exits by itself: for every amount of fuel
the result is never `done`; the run continues indefinitely (stopping only if
a simultaneous-event comparison raises `TypeError`). -/
theorem claim_C1 {draws : Nat → ℚ} {mc : Option Int}
    (hmc : mc = none ∨ mc = some 0) (fuel : Nat) (s : QueueSimulation) (k : Nat) :
    (QueueSimulation.run draws none mc fuel s k).isDone = false := by
  unfold QueueSimulation.run
  cases hrs : run_start draws s k with
  | none => rfl
  | some p =>
      obtain ⟨s1, k1⟩ := p
      have hA : 1 ≤ countA s1.event_queue := by
        have := (run_start_counts hrs).1
        omega
      exact run_loop_not_done hmc fuel s1 k1 hA

/-- Witness for C1: with `max_customers=0` and no `max_time` on a fresh
single-server simulation, five loop iterations later the run has not
terminated. -/
theorem claim_C1_witness :
    (QueueSimulation.run unitDraws none (some 0) 5 sampleSim 0).isDone = false :=
  claim_C1 (Or.inr rfl) 5 sampleSim 0

/-- C1 counterexample to the claim as stated: `run(max_customers=0)` with no
`max_time` on a fresh simulation raises nothing, and far from processing no
event it has processed three events after three loop iterations — the bound
`0` is falsy and is ignored. -/
theorem claim_C1_counterexample :
    (QueueSimulation.run unitDraws none (some 0) 3 sampleSim 0).processedEvents = 3 ∧
    (QueueSimulation.run unitDraws none (some 0) 3 sampleSim 0).isDone = false := by
  constructor <;>
    norm_num [RunResult.processedEvents, RunResult.isDone, QueueSimulation.run, run_start, run_loop, run_step, timeBoundHit, customerBoundHit,
    QueueSimulation.update_statistics, QueueSimulation.handle_arrival,
    QueueSimulation.handle_departure, Customer.waiting_time, Customer.system_time,
    QueueSimulation.schedule_next_arrival, QueueSimulation.schedule_event, insertEvent,
    pyEventLt, EventType.strLt, sampleSim, sampleS1, sampleS2, sampleS1b,
    QueueSimulation.init, unitDraws, natDraws, arrival_ne_departure, departure_ne_arrival]

/-- C2: for every processed event the statistics update happens once, before
the event's effects are applied and on the pre-event state: the time-weighted
queue-length integral grows by (pre-event waiting-FIFO length) × (event time −
previous event time), and the max queue length becomes the max of itself and
that same pre-event FIFO length. -/
theorem claim_C2 {draws : Nat → ℚ} {mt : Option ℚ} {mc : Option Int}
    {s : QueueSimulation} {k : Nat} {s' : QueueSimulation} {k' : Nat}
    {ev : Event} {rest : List Event}
    (hq : s.event_queue = ev :: rest)
    (h : run_step draws mt mc s k = StepResult.stepped s' k') :
    s'.queue_length_sum =
      s.queue_length_sum + (s.waiting_queue.length : ℚ) * (ev.time - s.last_event_time) ∧
    s'.max_queue_length = max s.max_queue_length s.waiting_queue.length := by
  obtain ⟨ev2, rest2, hq2, _, _, hcase⟩ := run_step_stepped h
  rw [hq] at hq2
  injection hq2 with h1 h2
  subst h1
  subst h2
  rcases hcase with ⟨_, hha⟩ | ⟨_, hhd⟩
  · obtain ⟨_, _, hqs, _, hmax, _⟩ := handle_arrival_some hha
    exact ⟨hqs, hmax⟩
  · obtain ⟨_, _, hqs, _, hmax, _⟩ := handle_departure_some hhd
    exact ⟨hqs, hmax⟩

/-- Witness for C2: the first processed event of the sample run. -/
theorem claim_C2_witness :
    sampleS2.queue_length_sum =
      sampleS1.queue_length_sum +
        (sampleS1.waiting_queue.length : ℚ) * (1 - sampleS1.last_event_time) ∧
    sampleS2.max_queue_length = max sampleS1.max_queue_length sampleS1.waiting_queue.length :=
  @claim_C2 unitDraws none none sampleS1 1 sampleS2 3
    ⟨1, EventType.arrival, ⟨0, 1, none, none⟩⟩ [] rfl
    (by norm_num [QueueSimulation.run, run_start, run_loop, run_step, timeBoundHit, customerBoundHit,
    QueueSimulation.update_statistics, QueueSimulation.handle_arrival,
    QueueSimulation.handle_departure, Customer.waiting_time, Customer.system_time,
    QueueSimulation.schedule_next_arrival, QueueSimulation.schedule_event, insertEvent,
    pyEventLt, EventType.strLt, sampleSim, sampleS1, sampleS2, sampleS1b,
    QueueSimulation.init, unitDraws, natDraws, arrival_ne_departure, departure_ne_arrival])

/-- C3: `get_theoretical_statistics` is a pure function of
(num_servers, arrival_rate, service_rate), equal to the spec's calculator:
ρ = λ/(c·μ); for ρ ≥ 1 (including ρ = 1 exactly, e.g. c=1, λ=μ=1) only ρ with
the instability flag and no finite averages; for c = 1, ρ < 1 the M/M/1
closed forms; for c > 1, ρ < 1 the Erlang-C values. -/
theorem claim_C3 :
    (∀ s : QueueSimulation,
      s.get_theoretical_statistics =
        specTheoretical s.num_servers s.arrival_rate s.service_rate) ∧
    (QueueSimulation.init 1 1 1).get_theoretical_statistics = TheoStats.unstable 1 := by
  constructor
  · intro s
    unfold QueueSimulation.get_theoretical_statistics specTheoretical
    simp only [ge_iff_le, one_div]
  · norm_num [QueueSimulation.get_theoretical_statistics, QueueSimulation.init]

/-- C4 (amended): construction never fails and never validates: for every
`num_servers`, `arrival_rate`, `service_rate` — non-positive values included —
the constructor returns the state storing the three parameters unchanged with
all counters zeroed; no ConfigError exists anywhere in the code. -/
theorem claim_C4 (ns : Int) (ar sr : ℚ) :
    QueueSimulation.init ns ar sr =
      ⟨ns, ar, sr, 0, [], [], 0, 0, 0, 0, 0, 0, 0, 0, 0, [], [], []⟩ := rfl

/-- C4 counterexample to the claim as stated: constructing with
`num_servers = 0`, `arrival_rate = -1`, `service_rate = 0` succeeds and the
non-positive values are stored untouched — nothing is rejected and no error
is raised at construction. -/
theorem claim_C4_counterexample :
    (QueueSimulation.init 0 (-1) 0).num_servers = 0 ∧
    (QueueSimulation.init 0 (-1) 0).arrival_rate = -1 ∧
    (QueueSimulation.init 0 (-1) 0).service_rate = 0 ∧
    (QueueSimulation.init 0 (-1) 0).event_queue = [] :=
  ⟨rfl, rfl, rfl, rfl⟩

/-- C5 (amended): events are ordered primarily by time — insertion into the
queue preserves time order; an equal-time tie is broken by the event-type
strings ('arrival' before 'departure'), not by insertion order; and two
events with equal time and equal type but different customers make the
comparison raise `TypeError` (the `Customer` dataclass is orderless) instead
of falling back to any insertion-order tie-break. -/
theorem claim_C5 :
    (∀ e1 e2 : Event, e1.time < e2.time → pyEventLt e1 e2 = some true) ∧
    (∀ e1 e2 : Event, e1.time = e2.time → e1.etype = EventType.arrival →
      e2.etype = EventType.departure → pyEventLt e1 e2 = some true) ∧
    (∀ e1 e2 : Event, e1.time = e2.time → e1.etype = e2.etype →
      e1.data ≠ e2.data → pyEventLt e1 e2 = none) ∧
    (∀ (e : Event) (l l' : List Event), List.Pairwise timeLe l →
      insertEvent e l = some l' → List.Pairwise timeLe l') := by
  refine ⟨?_, ?_, ?_, fun e l l' hs hi => insertEvent_sorted hs hi⟩
  · intro e1 e2 hlt
    unfold pyEventLt
    rw [if_neg (ne_of_lt hlt)]
    simp [hlt]
  · intro e1 e2 ht h1 h2
    unfold pyEventLt
    rw [if_pos ht, h1, h2]
    rfl
  · intro e1 e2 ht hty hd
    unfold pyEventLt
    rw [if_pos ht, if_pos hty, if_neg hd]

/-- Witness for C5: concrete comparisons and one sorted insertion. -/
theorem claim_C5_witness :
    pyEventLt ⟨1, EventType.arrival, ⟨0, 1, none, none⟩⟩
        ⟨2, EventType.arrival, ⟨1, 2, none, none⟩⟩ = some true ∧
    pyEventLt ⟨3, EventType.arrival, ⟨0, 1, none, none⟩⟩
        ⟨3, EventType.departure, ⟨1, 2, none, none⟩⟩ = some true ∧
    pyEventLt ⟨3, EventType.departure, ⟨0, 1, none, none⟩⟩
        ⟨3, EventType.departure, ⟨1, 2, none, none⟩⟩ = none ∧
    List.Pairwise timeLe [⟨1, EventType.arrival, ⟨0, 1, none, none⟩⟩,
        ⟨2, EventType.arrival, ⟨1, 2, none, none⟩⟩] :=
  ⟨claim_C5.1 _ _ (by norm_num),
   claim_C5.2.1 _ _ rfl rfl rfl,
   claim_C5.2.2.1 _ _ rfl rfl (by norm_num),
   claim_C5.2.2.2 ⟨2, EventType.arrival, ⟨1, 2, none, none⟩⟩
     [⟨1, EventType.arrival, ⟨0, 1, none, none⟩⟩] _
     (List.pairwise_singleton _ _) (by norm_num [insertEvent, pyEventLt])⟩

/-- C5 counterexample to the claim as stated: pushing an event with the same
time and type as a pending one raises (`TypeError` on the orderless
`Customer` payloads, modelled `none`) rather than using insertion order; and
when the types differ, the equal-time tie is resolved by the type string —
the later-inserted arrival sorts before the earlier departure — not by
insertion order. -/
theorem claim_C5_counterexample :
    insertEvent ⟨5, EventType.departure, ⟨1, 5, none, none⟩⟩
        [⟨5, EventType.departure, ⟨0, 5, none, none⟩⟩] = none ∧
    insertEvent ⟨5, EventType.arrival, ⟨1, 5, none, none⟩⟩
        [⟨5, EventType.departure, ⟨0, 5, none, none⟩⟩] =
      some [⟨5, EventType.arrival, ⟨1, 5, none, none⟩⟩,
            ⟨5, EventType.departure, ⟨0, 5, none, none⟩⟩] := by
  constructor <;> norm_num [insertEvent, pyEventLt, EventType.strLt, arrival_ne_departure]

/-- C6 (amended): `get_statistics` always reports arrivals, served, current
queue length and busy servers from the state, and when no customer has
departed the four averages and the utilization are zero; but the snapshot
omits the current simulated time whenever `customers_served = 0` (and then
also reports max queue length as a literal 0 instead of the recorded value). -/
theorem claim_C6 (s : QueueSimulation) :
    (s.get_statistics).customers_arrived = s.customers_arrived ∧
    (s.get_statistics).customers_served = s.customers_served ∧
    (s.get_statistics).current_queue_length = s.waiting_queue.length ∧
    (s.get_statistics).busy_servers = s.busy_servers ∧
    (s.get_statistics).current_time =
      (if s.customers_served = 0 then none else some s.current_time) ∧
    (s.get_statistics).max_queue_length =
      (if s.customers_served = 0 then 0 else s.max_queue_length) ∧
    (s.customers_served = 0 →
      (s.get_statistics).avg_waiting_time = 0 ∧
      (s.get_statistics).avg_system_time = 0 ∧
      (s.get_statistics).avg_queue_length = 0 ∧
      (s.get_statistics).server_utilization = 0) := by
  unfold QueueSimulation.get_statistics
  by_cases h : s.customers_served = 0 <;> simp [h]

/-- Witness for C6: the fresh sample simulation has served nobody, so its
snapshot reports zero averages and utilization (and no current time). -/
theorem claim_C6_witness :
    (QueueSimulation.get_statistics sampleSim).avg_waiting_time = 0 ∧
    (QueueSimulation.get_statistics sampleSim).avg_system_time = 0 ∧
    (QueueSimulation.get_statistics sampleSim).avg_queue_length = 0 ∧
    (QueueSimulation.get_statistics sampleSim).server_utilization = 0 :=
  (claim_C6 sampleSim).2.2.2.2.2.2 rfl

/-- C6 counterexample to the claim as stated: the snapshot of a fresh
simulation (customers_served = 0) does not contain the current simulated
time — the source's early-return dict has no `current_time` key. -/
theorem claim_C6_counterexample :
    (QueueSimulation.get_statistics sampleSim).current_time = none ∧
    sampleSim.customers_served = 0 :=
  ⟨rfl, rfl⟩

/-- C7: in every state reachable during a run on a freshly constructed
simulation with a positive server count, `busy_servers` stays within
`[0, num_servers]` and the waiting FIFO length is nonnegative; moreover the
pending departures always equal the busy servers, so a departure event is
only ever processed with an occupied server, and arrivals only increment
`busy_servers` below the cap. -/
theorem claim_C7 {draws : Nat → ℚ} {ns : Int} {ar sr : ℚ}
    {s1 : QueueSimulation} {k1 : Nat} {mt : Option ℚ} {mc : Option Int}
    {s' : QueueSimulation} {k' : Nat}
    (hns : 1 ≤ ns)
    (hstart : run_start draws (QueueSimulation.init ns ar sr) 0 = some (s1, k1))
    (hreach : Reaches draws mt mc s1 k1 s' k') :
    0 ≤ s'.busy_servers ∧ s'.busy_servers ≤ ns ∧
    (countD s'.event_queue : Int) = s'.busy_servers ∧
    0 ≤ s'.waiting_queue.length := by
  obtain ⟨hA, hD, hB, hN, _⟩ := run_start_counts hstart
  have hD1 : (countD s1.event_queue : Int) = s1.busy_servers := by
    rw [hD, hB]
    rfl
  have hle1 : s1.busy_servers ≤ s1.num_servers := by
    rw [hB, hN]
    show (0 : Int) ≤ ns
    omega
  obtain ⟨g1, g2, g3⟩ := reaches_busy hreach hD1 hle1
  have hn' : s'.num_servers = ns := by
    rw [g3, hN]
    rfl
  have hpos := Int.natCast_nonneg (countD s'.event_queue)
  refine ⟨by omega, ?_, g1, Nat.zero_le _⟩
  rw [← hn']
  exact g2

/-- Witness for C7: the state after the first processed event of the sample
run (one busy server, one pending departure). -/
theorem claim_C7_witness :
    0 ≤ sampleS2.busy_servers ∧ sampleS2.busy_servers ≤ 1 ∧
    (countD sampleS2.event_queue : Int) = sampleS2.busy_servers ∧
    0 ≤ sampleS2.waiting_queue.length :=
  @claim_C7 unitDraws 1 1 2 sampleS1 1 none none sampleS2 3
    (by norm_num) (by norm_num [QueueSimulation.run, run_start, run_loop, run_step, timeBoundHit, customerBoundHit,
    QueueSimulation.update_statistics, QueueSimulation.handle_arrival,
    QueueSimulation.handle_departure, Customer.waiting_time, Customer.system_time,
    QueueSimulation.schedule_next_arrival, QueueSimulation.schedule_event, insertEvent,
    pyEventLt, EventType.strLt, sampleSim, sampleS1, sampleS2, sampleS1b,
    QueueSimulation.init, unitDraws, natDraws, arrival_ne_departure, departure_ne_arrival])
    (Reaches.tail sampleS1 1 sampleS1 1 sampleS2 3 (Reaches.refl sampleS1 1)
      (by norm_num [QueueSimulation.run, run_start, run_loop, run_step, timeBoundHit, customerBoundHit,
    QueueSimulation.update_statistics, QueueSimulation.handle_arrival,
    QueueSimulation.handle_departure, Customer.waiting_time, Customer.system_time,
    QueueSimulation.schedule_next_arrival, QueueSimulation.schedule_event, insertEvent,
    pyEventLt, EventType.strLt, sampleSim, sampleS1, sampleS2, sampleS1b,
    QueueSimulation.init, unitDraws, natDraws, arrival_ne_departure, departure_ne_arrival]))

/-- C8: across a single run on a fresh simulation with nonnegative draws
(which is what `expovariate` returns for the positive rates), the processed
event times — the `current_time` values in processing order — form a
non-decreasing sequence. -/
theorem claim_C8 {draws : Nat → ℚ} {ns : Int} {ar sr : ℚ}
    {s1 : QueueSimulation} {k1 : Nat} {mt : Option ℚ} {mc : Option Int}
    {s' : QueueSimulation} {k' : Nat}
    (hd : ∀ i, 0 ≤ draws i)
    (hstart : run_start draws (QueueSimulation.init ns ar sr) 0 = some (s1, k1))
    (hreach : Reaches draws mt mc s1 k1 s' k') :
    List.Pairwise (fun a b : ℚ => a ≤ b) s'.time_history :=
  (reaches_order hd hreach (run_start_init_order hd hstart)).2.2.2.1

/-- Witness for C8: after one processed event the recorded times are `[1]`. -/
theorem claim_C8_witness :
    List.Pairwise (fun a b : ℚ => a ≤ b) sampleS2.time_history :=
  @claim_C8 unitDraws 1 1 2 sampleS1 1 none none sampleS2 3
    (fun _ => zero_le_one) (by norm_num [QueueSimulation.run, run_start, run_loop, run_step, timeBoundHit, customerBoundHit,
    QueueSimulation.update_statistics, QueueSimulation.handle_arrival,
    QueueSimulation.handle_departure, Customer.waiting_time, Customer.system_time,
    QueueSimulation.schedule_next_arrival, QueueSimulation.schedule_event, insertEvent,
    pyEventLt, EventType.strLt, sampleSim, sampleS1, sampleS2, sampleS1b,
    QueueSimulation.init, unitDraws, natDraws, arrival_ne_departure, departure_ne_arrival])
    (Reaches.tail sampleS1 1 sampleS1 1 sampleS2 3 (Reaches.refl sampleS1 1)
      (by norm_num [QueueSimulation.run, run_start, run_loop, run_step, timeBoundHit, customerBoundHit,
    QueueSimulation.update_statistics, QueueSimulation.handle_arrival,
    QueueSimulation.handle_departure, Customer.waiting_time, Customer.system_time,
    QueueSimulation.schedule_next_arrival, QueueSimulation.schedule_event, insertEvent,
    pyEventLt, EventType.strLt, sampleSim, sampleS1, sampleS2, sampleS1b,
    QueueSimulation.init, unitDraws, natDraws, arrival_ne_departure, departure_ne_arrival]))

/-- C9: at every point of a run on a fresh simulation at which the engine has
not been halted (after the first arrival is scheduled and between event
dispatches), the event queue holds exactly one pending arrival event. -/
theorem claim_C9 {draws : Nat → ℚ} {ns : Int} {ar sr : ℚ}
    {s1 : QueueSimulation} {k1 : Nat} {mt : Option ℚ} {mc : Option Int}
    {s' : QueueSimulation} {k' : Nat}
    (hstart : run_start draws (QueueSimulation.init ns ar sr) 0 = some (s1, k1))
    (hreach : Reaches draws mt mc s1 k1 s' k') :
    countA s'.event_queue = 1 := by
  have h1 : countA s1.event_queue = 1 := by
    rw [(run_start_counts hstart).1]
    rfl
  rw [reaches_countA hreach, h1]

/-- Witness for C9: after one processed event exactly one arrival pends. -/
theorem claim_C9_witness : countA sampleS2.event_queue = 1 :=
  @claim_C9 unitDraws 1 1 2 sampleS1 1 none none sampleS2 3
    (by norm_num [QueueSimulation.run, run_start, run_loop, run_step, timeBoundHit, customerBoundHit,
    QueueSimulation.update_statistics, QueueSimulation.handle_arrival,
    QueueSimulation.handle_departure, Customer.waiting_time, Customer.system_time,
    QueueSimulation.schedule_next_arrival, QueueSimulation.schedule_event, insertEvent,
    pyEventLt, EventType.strLt, sampleSim, sampleS1, sampleS2, sampleS1b,
    QueueSimulation.init, unitDraws, natDraws, arrival_ne_departure, departure_ne_arrival])
    (Reaches.tail sampleS1 1 sampleS1 1 sampleS2 3 (Reaches.refl sampleS1 1)
      (by norm_num [QueueSimulation.run, run_start, run_loop, run_step, timeBoundHit, customerBoundHit,
    QueueSimulation.update_statistics, QueueSimulation.handle_arrival,
    QueueSimulation.handle_departure, Customer.waiting_time, Customer.system_time,
    QueueSimulation.schedule_next_arrival, QueueSimulation.schedule_event, insertEvent,
    pyEventLt, EventType.strLt, sampleSim, sampleS1, sampleS2, sampleS1b,
    QueueSimulation.init, unitDraws, natDraws, arrival_ne_departure, departure_ne_arrival]))

/-- C10: every `run` call unconditionally schedules a fresh first-arrival
event (with a fresh customer id) into whatever queue is already there, never
checking for leftovers; hence starting a second run on a queue that already
holds the one pending arrival of a previous run yields two pending arrivals,
and the count stays at two through every later processed event — the
one-pending-arrival invariant holds only for a single run on a fresh
instance. -/
theorem claim_C10 {draws : Nat → ℚ} {s : QueueSimulation} {k : Nat}
    {s' : QueueSimulation} {k' : Nat}
    (hrs : run_start draws s k = some (s', k')) :
    countA s'.event_queue = countA s.event_queue + 1 ∧
    s'.next_customer_id = s.next_customer_id + 1 ∧
    (countA s.event_queue = 1 →
      ∀ (mt : Option ℚ) (mc : Option Int) (s2 : QueueSimulation) (k2 : Nat),
        Reaches draws mt mc s' k' s2 k2 → countA s2.event_queue = 2) := by
  obtain ⟨hA, _, _, _, hid⟩ := run_start_counts hrs
  refine ⟨hA, hid, ?_⟩
  intro h1 mt mc s2 k2 hr
  rw [reaches_countA hr, hA, h1]

/-- Witness for C10: a second `run` preamble on the sample state that already
holds one pending arrival leaves two pending arrivals. -/
theorem claim_C10_witness : countA sampleS1b.event_queue = 2 :=
  (@claim_C10 natDraws sampleS1 1 sampleS1b 2
      (by norm_num [QueueSimulation.run, run_start, run_loop, run_step, timeBoundHit, customerBoundHit,
    QueueSimulation.update_statistics, QueueSimulation.handle_arrival,
    QueueSimulation.handle_departure, Customer.waiting_time, Customer.system_time,
    QueueSimulation.schedule_next_arrival, QueueSimulation.schedule_event, insertEvent,
    pyEventLt, EventType.strLt, sampleSim, sampleS1, sampleS2, sampleS1b,
    QueueSimulation.init, unitDraws, natDraws, arrival_ne_departure, departure_ne_arrival])).2.2 rfl
    none none sampleS1b 2 (Reaches.refl sampleS1b 2)

end QueueSim
